import Mathlib

/-!
# Go-Todo: a verification development of `main.go`

`main.go` is an HTTP service with five handlers over one MongoDB collection,
reached through the `mgo.v2` driver.  The handlers are embedded as pure
functions from the request and the collection to the handler's outcome and the
collection afterwards.

What the handlers read from outside the file is an explicit argument:

* the decoded request body (`json.NewDecoder(r.Body).Decode(&t)`): the error, or
  the `todo` value the decoder filled (absent fields keep Go's zero value);
* the `id` path parameter (`chi.URLParam(r, "id")`), a text;
* the value `bson.NewObjectId()` returns and the value `time.Now()` returns;
* the failure the driver meets on the way to the server for this call
  (`none` when the server answers);
* what the call of `rnd.Template` on `static/home.tpl` does: it writes the
  page, it returns an error, or it panics.

The library functions the handlers call are modelled after their documented
behaviour: `strings.TrimSpace`, `encoding/hex`, `bson.IsObjectIdHex`,
`bson.ObjectIdHex`, `ObjectId.Hex`, and the `mgo.v2` collection calls in the
driver's default safe mode (`mgo.Dial` leaves the session in it), where
`Update` and `RemoveId` return `ErrNotFound` when no document matches and
`Insert` returns a duplicate-key error when the `_id` is taken.

A Go string is modelled as a `String` (a text of Unicode code points); `len(s)`
is its UTF-8 byte size.  The slice a handler hands to the renderer keeps Go's
difference between the nil slice, which `encoding/json` writes as `null`, and
a slice with elements, which it writes as an array.
-/

namespace GoTodo

/-! ## Data model -/

/-- A clock reading (`time.Time`), at the resolution the store keeps. -/
abbrev Time := Nat

/-- A `bson.ObjectId`: the twelve raw bytes of a BSON object identifier. -/
abbrev ObjectId := { bs : List (Fin 256) // bs.length = 12 }

/-- The errors a handler can meet. -/
inductive Error where
  /-- The request body is not the JSON of a `todo`. -/
  | decode (msg : String)
  /-- The driver did not get an answer from the server. -/
  | transport (msg : String)
  /-- The value `mgo.ErrNotFound`. -/
  | notFound
  /-- The server's duplicate key error (E11000) on `_id`. -/
  | duplicateKey
  /-- The template could not be parsed or executed. -/
  | template (msg : String)
  deriving DecidableEq, Repr

/-- Struct for MongoDB document representation. -/
structure todoModel where
  ID : ObjectId
  Title : String
  Completed : Bool
  CreatedAt : Time
  deriving DecidableEq, Repr

/-- Struct for API response. -/
structure todo where
  ID : String
  Title : String
  Completed : Bool
  CreatedAt : Time
  deriving DecidableEq, Repr

/-- The documents of the collection `todo`, in the store's natural order. -/
abbrev Collection := List todoModel

/-- A Go slice: `null` is the nil slice, the value of `var todoList []todo`
before anything is appended, which `encoding/json` writes as `null`; `of l` is
a slice that is not nil, with the elements `l`, written as a JSON array. -/
inductive Slice (α : Type) where
  | null
  | of (elems : List α)
  deriving DecidableEq, Repr

/-- The elements of a slice, what `range` goes through. -/
def Slice.toList {α : Type} : Slice α → List α
  | .null => []
  | .of l => l

/-- Go's `append(s, x)`: the result is never the nil slice. -/
def Slice.append {α : Type} (s : Slice α) (x : α) : Slice α :=
  .of (s.toList ++ [x])

/-- A value of a `renderer.M` map. -/
inductive Value where
  | text (s : String)
  | fault (e : Error)
  | todos (l : Slice todo)
  deriving DecidableEq, Repr

/-- A `renderer.M`: the keys and values of a JSON envelope, in source order. -/
abbrev M := List (String × Value)

/-- What a handler does with a request. -/
inductive Outcome where
  /-- The call `rnd.JSON(w, status, m)`. -/
  | json (status : Nat) (m : M)
  /-- The call `rnd.Template(w, status, ...)` wrote the page. -/
  | html (status : Nat) (page : String)
  /-- The call `log.Fatal(err)`: the error is logged and the process exits
  with status 1. -/
  | fatal (err : Error)
  /-- A Go panic inside the handler. The middleware `Recoverer` of `main`
  recovers it and the process goes on serving. -/
  | panicked (msg : String)
  deriving DecidableEq, Repr

/-- The status of the response the handler wrote, when it wrote one. -/
def Outcome.status? : Outcome → Option Nat
  | .json s _ => some s
  | .html s _ => some s
  | .fatal _ => none
  | .panicked _ => none

/-- The process is terminated by the handler. -/
def Outcome.exits : Outcome → Bool
  | .fatal _ => true
  | _ => false

def StatusOK : Nat := 200
def StatusCreated : Nat := 201
def StatusBadRequest : Nat := 400
def StatusInternalServerError : Nat := 500

/-! ## Library functions -/

/-- Go's `unicode.IsSpace`. -/
def isSpace (c : Char) : Bool :=
  let n := c.toNat
  n == 0x09 || n == 0x0A || n == 0x0B || n == 0x0C || n == 0x0D || n == 0x20 ||
  n == 0x85 || n == 0xA0 || n == 0x1680 || (0x2000 ≤ n && n ≤ 0x200A) ||
  n == 0x2028 || n == 0x2029 || n == 0x202F || n == 0x205F || n == 0x3000

/-- Go's `strings.TrimSpace`: the text without its leading and trailing white
space. -/
def TrimSpace (s : String) : String :=
  String.mk ((s.data.dropWhile isSpace).rdropWhile isSpace)

/-- The table of `encoding/hex`. -/
def hextable : List Char := "0123456789abcdef".data

/-- One digit of the table. -/
def hexDigit (n : Nat) : Char := hextable.getD n '0'

/-- Go's `hex.EncodeToString`: two digits for each byte, high half first. -/
def EncodeToString (src : List (Fin 256)) : String :=
  String.mk (src.flatMap fun v => [hexDigit (v.val / 16), hexDigit (v.val % 16)])

/-- The value of a hexadecimal digit (`fromHexChar` of `encoding/hex`). -/
def fromHexChar (c : Char) : Option Nat :=
  let n := c.toNat
  if 48 ≤ n ∧ n ≤ 57 then some (n - 48)
  else if 97 ≤ n ∧ n ≤ 102 then some (n - 97 + 10)
  else if 65 ≤ n ∧ n ≤ 70 then some (n - 65 + 10)
  else none

/-- Go's `hex.DecodeString`; `none` when it returns an error (a character that
is no digit, or an odd length). -/
def DecodeString : List Char → Option (List (Fin 256))
  | [] => some []
  | [_] => none
  | a :: b :: rest =>
    match fromHexChar a, fromHexChar b with
    | some hi, some lo =>
      match DecodeString rest with
      | some tl => some (Fin.ofNat (hi * 16 + lo) :: tl)
      | none => none
    | _, _ => none

/-- The function `bson.IsObjectIdHex`. -/
def IsObjectIdHex (s : String) : Bool :=
  if s.utf8ByteSize ≠ 24 then false
  else (DecodeString s.data).isSome

/-- The function `bson.ObjectIdHex`; `none` where it panics. -/
def ObjectIdHex (s : String) : Option ObjectId :=
  match DecodeString s.data with
  | some d => if h : d.length = 12 then some ⟨d, h⟩ else none
  | none => none

/-- The method `ObjectId.Hex`. -/
def Hex (id : ObjectId) : String := EncodeToString id.val

/-! ## The collection calls of the driver -/

/-- The call `Find(bson.M{}).All(&todos)`: every document, in natural order. -/
def All (link : Option Error) (c : Collection) : Except Error (List todoModel) :=
  match link with
  | some err => .error err
  | none => .ok c

/-- The call `Insert(&tm)`: the document is added after the others, unless its
`_id` is taken. -/
def Insert (link : Option Error) (c : Collection) (doc : todoModel) :
    Except Error Collection :=
  match link with
  | some err => .error err
  | none => if c.any (fun d => d.ID = doc.ID) then .error .duplicateKey else .ok (c ++ [doc])

/-- The first document with this `_id` gets the two fields of the `$set`;
`none` when no document has the `_id`. -/
def setFirst (id : ObjectId) (title : String) (completed : Bool) :
    Collection → Option Collection
  | [] => none
  | d :: ds =>
    if d.ID = id then some ({ d with Title := title, Completed := completed } :: ds)
    else (setFirst id title completed ds).map (d :: ·)

/-- The first document with this `_id` is taken out; `none` when no document
has the `_id`. -/
def removeFirst (id : ObjectId) : Collection → Option Collection
  | [] => none
  | d :: ds => if d.ID = id then some ds else (removeFirst id ds).map (d :: ·)

/-- The call `Update(bson.M{"_id": id}, bson.M{"$set": bson.M{"title": title,
"completed": completed}})`. The driver documents that `Update` changes a single
document matching the selector and, in safe mode, returns `ErrNotFound` when
no document matches. -/
def Update (link : Option Error) (c : Collection) (id : ObjectId) (title : String)
    (completed : Bool) : Except Error Collection :=
  match link with
  | some err => .error err
  | none =>
    match setFirst id title completed c with
    | some c' => .ok c'
    | none => .error .notFound

/-- The call `RemoveId(id)`. The driver documents that it removes a single
document with the `_id` and, in safe mode, returns `ErrNotFound` when there is
none. -/
def RemoveId (link : Option Error) (c : Collection) (id : ObjectId) :
    Except Error Collection :=
  match link with
  | some err => .error err
  | none =>
    match removeFirst id c with
    | some c' => .ok c'
    | none => .error .notFound

/-! ## The handlers of `main.go` -/

/-- Error handling function: `log.Fatal(err)` when `err` is not nil. The error
of the result is the one the process exits on. -/
def checkErr (err : Option Error) : Except Error Unit :=
  match err with
  | some e => .error e
  | none => .ok ()

/-- What the call `rnd.Template(w, http.StatusOK, []string{"static/home.tpl"},
nil)` does. -/
inductive Rendered where
  /-- The page is written and the call returns nil. -/
  | page (html : String)
  /-- The call returns an error: the template was parsed, and executing it or
  writing the page failed. -/
  | failed (err : Error)
  /-- The call panics: the renderer parses the files under `template.Must`, so
  a file that is missing or does not parse is a panic and no returned error. -/
  | panics (msg : String)
  deriving DecidableEq, Repr

/-- Home page handler. `render` is what the call of `rnd.Template` does. A
panic of the call leaves the handler before `checkErr` is reached. -/
def homeHandler (render : Rendered) : Outcome :=
  match render with
  | .panics msg => .panicked msg
  | .page html =>
    match checkErr none with
    | .error e => .fatal e
    | .ok () => .html StatusOK html
  | .failed err =>
    match checkErr (some err) with
    | .error e => .fatal e
    | .ok () => .html StatusOK ""

/-- Fetch all To-Do items from the database. -/
def fetchTodos (link : Option Error) (c : Collection) : Outcome × Collection :=
  match All link c with
  | .error err =>
    (.json StatusInternalServerError
      [("message", .text "Failed to fetch todos"), ("error", .fault err)], c)
  | .ok todos =>
    let todoList : Slice todo := todos.foldl (fun acc t => acc.append {
        ID := Hex t.ID
        Title := t.Title
        Completed := t.Completed
        CreatedAt := t.CreatedAt }) Slice.null
    (.json StatusOK [("data", .todos todoList)], c)

/-- Create a new To-Do item. `newId` is what `bson.NewObjectId()` returns and
`now` what `time.Now()` returns. -/
def createTodo (newId : ObjectId) (now : Time) (link : Option Error)
    (body : Except Error todo) (c : Collection) : Outcome × Collection :=
  match body with
  | .error err =>
    (.json StatusBadRequest
      [("message", .text "Invalid request payload"), ("error", .fault err)], c)
  | .ok t =>
    if t.Title = "" then
      (.json StatusBadRequest [("message", .text "Title is required")], c)
    else
      let tm : todoModel := {
        ID := newId
        Title := t.Title
        Completed := false
        CreatedAt := now }
      match Insert link c tm with
      | .error err =>
        (.json StatusInternalServerError
          [("message", .text "Failed to save todo"), ("error", .fault err)], c)
      | .ok c' =>
        (.json StatusCreated
          [("message", .text "Todo created successfully"), ("todo_id", .text (Hex tm.ID))], c')

/-- Delete a To-Do item. `param` is `chi.URLParam(r, "id")`. -/
def deleteTodo (link : Option Error) (param : String) (c : Collection) :
    Outcome × Collection :=
  let id := TrimSpace param
  if !IsObjectIdHex id then
    (.json StatusBadRequest [("message", .text "Invalid ID")], c)
  else
    match ObjectIdHex id with
    | none => (.panicked "invalid input to ObjectIdHex", c)
    | some oid =>
      match RemoveId link c oid with
      | .error err =>
        (.json StatusInternalServerError
          [("message", .text "Failed to remove todo"), ("error", .fault err)], c)
      | .ok c' => (.json StatusOK [("message", .text "Todo deleted successfully")], c')

/-- Update a To-Do item. `param` is `chi.URLParam(r, "id")`. -/
def updateTodo (link : Option Error) (param : String) (body : Except Error todo)
    (c : Collection) : Outcome × Collection :=
  let id := TrimSpace param
  if !IsObjectIdHex id then
    (.json StatusBadRequest [("message", .text "Invalid ID")], c)
  else
    match body with
    | .error err =>
      (.json StatusBadRequest
        [("message", .text "Invalid request payload"), ("error", .fault err)], c)
    | .ok t =>
      match ObjectIdHex id with
      | none => (.panicked "invalid input to ObjectIdHex", c)
      | some oid =>
        match Update link c oid t.Title t.Completed with
        | .error err =>
          (.json StatusInternalServerError
            [("message", .text "Failed to update todo"), ("error", .fault err)], c)
        | .ok c' => (.json StatusOK [("message", .text "Todo updated successfully")], c')

/-- A request the router of `main` dispatches, with what its handler reads
from outside. -/
inductive Request where
  /-- The route `GET /`. -/
  | getHome (render : Rendered)
  /-- The route `GET /todos`. -/
  | getTodos (link : Option Error)
  /-- The route `POST /todos`. -/
  | postTodos (newId : ObjectId) (now : Time) (link : Option Error) (body : Except Error todo)
  /-- The route `DELETE /todos/{id}`. -/
  | deleteTodos (link : Option Error) (param : String)
  /-- The route `PUT /todos/{id}`. -/
  | putTodos (link : Option Error) (param : String) (body : Except Error todo)

/-- The routes of `main`. -/
def serve (r : Request) (c : Collection) : Outcome × Collection :=
  match r with
  | .getHome render => (homeHandler render, c)
  | .getTodos link => fetchTodos link c
  | .postTodos newId now link body => createTodo newId now link body c
  | .deleteTodos link param => deleteTodo link param c
  | .putTodos link param body => updateTodo link param body c

/-- The collection after a sequence of requests. The collection lives in the
store, so it goes on from request to request whatever each outcome is. -/
def run (rs : List Request) (c : Collection) : Collection :=
  rs.foldl (fun c r => (serve r c).2) c

/-! ## Properties of a collection -/

/-- No two documents have the same `_id`. -/
def UniqueIds (c : Collection) : Prop := (c.map (fun d => d.ID)).Nodup

/-- How many documents of the collection have this `_id`. -/
def occurrences (id : ObjectId) (c : Collection) : Nat := (c.map (fun d => d.ID)).count id

/-- Every stored record has a non-empty title. -/
def AllTitled (c : Collection) : Prop := ∀ d ∈ c, d.Title ≠ ""

/-- The text is empty or consists only of white space. -/
def isBlank (s : String) : Bool := s.data.all isSpace

/-- The wire form of a stored record: the element the loop of `fetchTodos`
appends for it. -/
def toDTO (t : todoModel) : todo :=
  { ID := Hex t.ID, Title := t.Title, Completed := t.Completed, CreatedAt := t.CreatedAt }

/-- The slice the loop of `fetchTodos` leaves when it has appended the elements
`l`, in this order, to the nil slice: the nil slice when there was nothing to
append. -/
def appended (l : List todo) : Slice todo :=
  match l with
  | [] => .null
  | a :: l => .of (a :: l)

/-- The character is a hexadecimal digit, of either case. -/
def isHexDigit (c : Char) : Bool := (fromHexChar c).isSome

/-- The text is a 24-character hexadecimal string. -/
def WellFormedId (s : String) : Prop := s.length = 24 ∧ ∀ ch ∈ s.data, isHexDigit ch = true

/-- The identifier whose twelve bytes are `b`. -/
def sampleId (b : Fin 256) : ObjectId := ⟨List.replicate 12 b, List.length_replicate 12 b⟩

/-! ## Hexadecimal identifiers -/

theorem fromHexChar_hexDigit : ∀ n, n < 16 → fromHexChar (hexDigit n) = some n := by
  decide

theorem utf8Size_hexDigit : ∀ n, n < 16 → (hexDigit n).utf8Size = 1 := by
  decide

theorem isSpace_hexDigit : ∀ n, n < 16 → isSpace (hexDigit n) = false := by
  decide

theorem EncodeToString_cons (v : Fin 256) (src : List (Fin 256)) :
    (EncodeToString (v :: src)).data
      = hexDigit (v.val / 16) :: hexDigit (v.val % 16) :: (EncodeToString src).data := by
  simp [EncodeToString]

theorem EncodeToString_nil : (EncodeToString []).data = [] := by
  simp [EncodeToString]

/-- Decoding the hexadecimal text of a byte sequence gives the sequence back. -/
theorem DecodeString_EncodeToString (src : List (Fin 256)) :
    DecodeString (EncodeToString src).data = some src := by
  induction src with
  | nil => simp [EncodeToString_nil, DecodeString]
  | cons v src ih =>
    have h1 : v.val / 16 < 16 := by omega
    have h2 : v.val % 16 < 16 := by omega
    rw [EncodeToString_cons, DecodeString, fromHexChar_hexDigit _ h1,
      fromHexChar_hexDigit _ h2]
    simp only [ih]
    have h3 : (Fin.ofNat (v.val / 16 * 16 + v.val % 16) : Fin 256) = v := by
      apply Fin.ext
      simp only [Fin.ofNat, Fin.val_mk]
      omega
    rw [h3]

theorem utf8ByteSize_mk_cons (c : Char) (cs : List Char) :
    (String.mk (c :: cs)).utf8ByteSize = (String.mk cs).utf8ByteSize + c.utf8Size := by
  simp [String.utf8ByteSize, String.utf8ByteSize.go]

theorem utf8ByteSize_EncodeToString (src : List (Fin 256)) :
    (EncodeToString src).utf8ByteSize = 2 * src.length := by
  induction src with
  | nil => simp [EncodeToString, String.utf8ByteSize, String.utf8ByteSize.go]
  | cons v src ih =>
    have h1 : v.val / 16 < 16 := by omega
    have h2 : v.val % 16 < 16 := by omega
    have e : EncodeToString (v :: src)
        = String.mk (hexDigit (v.val / 16) :: hexDigit (v.val % 16) :: (EncodeToString src).data) := by
      rw [← EncodeToString_cons]
    rw [e, utf8ByteSize_mk_cons, utf8ByteSize_mk_cons, utf8Size_hexDigit _ h1,
      utf8Size_hexDigit _ h2]
    have e2 : String.mk (EncodeToString src).data = EncodeToString src := rfl
    rw [e2, ih, List.length_cons]
    omega

theorem isSpace_EncodeToString (src : List (Fin 256)) :
    ∀ c ∈ (EncodeToString src).data, isSpace c = false := by
  induction src with
  | nil => simp [EncodeToString_nil]
  | cons v src ih =>
    have h1 : v.val / 16 < 16 := by omega
    have h2 : v.val % 16 < 16 := by omega
    intro c hc
    rw [EncodeToString_cons] at hc
    simp only [List.mem_cons] at hc
    rcases hc with rfl | rfl | hc
    · exact isSpace_hexDigit _ h1
    · exact isSpace_hexDigit _ h2
    · exact ih c hc

theorem dropWhile_of_all_false {α : Type} (p : α → Bool) (l : List α)
    (h : ∀ a ∈ l, p a = false) : l.dropWhile p = l := by
  cases l with
  | nil => rfl
  | cons a l => simp [List.dropWhile, h a (List.mem_cons_self a l)]

theorem rdropWhile_of_all_false {α : Type} (p : α → Bool) (l : List α)
    (h : ∀ a ∈ l, p a = false) : l.rdropWhile p = l := by
  rw [List.rdropWhile_eq_self_iff]
  intro hl
  simp [h _ (List.getLast_mem hl)]

/-- An identifier's hexadecimal text has no white space to trim. -/
theorem TrimSpace_Hex (id : ObjectId) : TrimSpace (Hex id) = Hex id := by
  unfold TrimSpace Hex
  rw [dropWhile_of_all_false _ _ (isSpace_EncodeToString id.val),
    rdropWhile_of_all_false _ _ (isSpace_EncodeToString id.val)]

/-- An identifier's hexadecimal text is a well-formed identifier. -/
theorem IsObjectIdHex_Hex (id : ObjectId) : IsObjectIdHex (Hex id) = true := by
  unfold IsObjectIdHex Hex
  rw [utf8ByteSize_EncodeToString, DecodeString_EncodeToString, id.property]
  simp

/-- Reading an identifier back from its hexadecimal text gives the identifier. -/
theorem ObjectIdHex_Hex (id : ObjectId) : ObjectIdHex (Hex id) = some id := by
  unfold ObjectIdHex Hex
  rw [DecodeString_EncodeToString]
  simp [id.property]

/-- The hexadecimal text determines the identifier. -/
theorem Hex_injective : Function.Injective Hex := by
  intro a b h
  have ha := ObjectIdHex_Hex a
  rw [h, ObjectIdHex_Hex b] at ha
  exact (Option.some.inj ha).symm

theorem utf8Size_of_fromHexChar (c : Char) (n : Nat) (h : fromHexChar c = some n) :
    c.utf8Size = 1 := by
  have hc : c.toNat ≤ 102 := by
    unfold fromHexChar at h
    simp only at h
    split_ifs at h <;> omega
  have hv : c.val ≤ UInt32.ofNatCore 127 (by decide) := by
    show c.val.toBitVec.toNat ≤ 127
    have e : c.val.toBitVec.toNat = c.toNat := rfl
    omega
  unfold Char.utf8Size
  simp only
  rw [if_pos hv]

theorem DecodeString_length : ∀ (l : List Char) (d : List (Fin 256)),
    DecodeString l = some d →
      l.length = 2 * d.length ∧ (String.mk l).utf8ByteSize = l.length
  | [], d, h => by
    simp only [DecodeString, Option.some.injEq] at h
    subst h
    simp [String.utf8ByteSize, String.utf8ByteSize.go]
  | [_], d, h => by simp [DecodeString] at h
  | a :: b :: rest, d, h => by
    rw [DecodeString] at h
    cases ha : fromHexChar a with
    | none => simp [ha] at h
    | some hi =>
      cases hb : fromHexChar b with
      | none => simp [ha, hb] at h
      | some lo =>
        cases hr : DecodeString rest with
        | none => simp [ha, hb, hr] at h
        | some tl =>
          simp only [ha, hb, hr, Option.some.injEq] at h
          subst h
          obtain ⟨ih1, ih2⟩ := DecodeString_length rest tl hr
          rw [utf8ByteSize_mk_cons, utf8ByteSize_mk_cons, utf8Size_of_fromHexChar a hi ha,
            utf8Size_of_fromHexChar b lo hb, ih2]
          simp only [List.length_cons]
          exact ⟨by omega, trivial⟩

/-- A text `bson.IsObjectIdHex` accepts is one `bson.ObjectIdHex` reads without
a panic. -/
theorem ObjectIdHex_of_IsObjectIdHex (s : String) (h : IsObjectIdHex s = true) :
    ∃ oid, ObjectIdHex s = some oid := by
  unfold IsObjectIdHex at h
  split_ifs at h with hs
  cases hd : DecodeString s.data with
  | none => simp [hd] at h
  | some d =>
    have hl := DecodeString_length s.data d hd
    have e : String.mk s.data = s := rfl
    rw [e] at hl
    have h12 : d.length = 12 := by
      simp only [ne_eq, Decidable.not_not] at hs
      omega
    exact ⟨⟨d, h12⟩, by simp [ObjectIdHex, hd, h12]⟩

/-! ## The collection calls -/

theorem setFirst_eq_none (id : ObjectId) (title : String) (completed : Bool) :
    ∀ c : Collection, (∀ d ∈ c, d.ID ≠ id) → setFirst id title completed c = none
  | [], _ => rfl
  | d :: ds, h => by
    have hd : d.ID ≠ id := h d (List.mem_cons_self d ds)
    have ih := setFirst_eq_none id title completed ds
      (fun x hx => h x (List.mem_cons_of_mem d hx))
    simp [setFirst, hd, ih]

theorem setFirst_isSome (id : ObjectId) (title : String) (completed : Bool) :
    ∀ c : Collection, (∃ d ∈ c, d.ID = id) → ∃ c', setFirst id title completed c = some c'
  | [], h => by simp at h
  | d :: ds, h => by
    by_cases hd : d.ID = id
    · exact ⟨{ d with Title := title, Completed := completed } :: ds, by simp [setFirst, hd]⟩
    · have h2 : ∃ x ∈ ds, x.ID = id := by
        obtain ⟨x, hx, hxi⟩ := h
        rcases List.mem_cons.mp hx with rfl | hx
        · exact absurd hxi hd
        · exact ⟨x, hx, hxi⟩
      obtain ⟨c', hc⟩ := setFirst_isSome id title completed ds h2
      exact ⟨d :: c', by simp [setFirst, hd, hc]⟩

/-- What `setFirst` gives has a document with the `_id`, carrying the two new
fields; it has the identifiers and the creation times of the documents
before, in the same order. -/
theorem setFirst_spec (id : ObjectId) (title : String) (completed : Bool) :
    ∀ c c' : Collection, setFirst id title completed c = some c' →
      (∃ d ∈ c', d.ID = id ∧ d.Title = title ∧ d.Completed = completed) ∧
      c'.map (fun d => (d.ID, d.CreatedAt)) = c.map (fun d => (d.ID, d.CreatedAt))
  | [], c', h => by simp [setFirst] at h
  | d :: ds, c', h => by
    by_cases hd : d.ID = id
    · subst hd
      simp only [setFirst, if_true, Option.some.injEq] at h
      subst h
      exact ⟨⟨_, List.mem_cons_self _ _, rfl, rfl, rfl⟩, by simp⟩
    · simp only [setFirst, hd, if_false, Option.map_eq_some'] at h
      obtain ⟨t, ht, rfl⟩ := h
      obtain ⟨⟨x, hx, hx2⟩, hm⟩ := setFirst_spec id title completed ds t ht
      exact ⟨⟨x, List.mem_cons_of_mem d hx, hx2⟩, by simp [hm]⟩

/-- What `removeFirst` gives is the collection without one document, which has
the `_id`. -/
theorem removeFirst_spec (id : ObjectId) :
    ∀ c c' : Collection, removeFirst id c = some c' →
      ∃ l d r, c = l ++ d :: r ∧ c' = l ++ r ∧ d.ID = id
  | [], c', h => by simp [removeFirst] at h
  | d :: ds, c', h => by
    by_cases hd : d.ID = id
    · simp only [removeFirst, hd, if_true, Option.some.injEq] at h
      subst h
      exact ⟨[], d, ds, rfl, rfl, hd⟩
    · simp only [removeFirst, hd, if_false, Option.map_eq_some'] at h
      obtain ⟨t, ht, rfl⟩ := h
      obtain ⟨l, x, r, h1, h2, h3⟩ := removeFirst_spec id ds t ht
      exact ⟨d :: l, x, r, by simp [h1], by simp [h2], h3⟩

/-- A text `bson.ObjectIdHex` reads is one `bson.IsObjectIdHex` accepts. -/
theorem IsObjectIdHex_of_ObjectIdHex (s : String) (oid : ObjectId)
    (h : ObjectIdHex s = some oid) : IsObjectIdHex s = true := by
  unfold ObjectIdHex at h
  cases hd : DecodeString s.data with
  | none => simp [hd] at h
  | some d =>
    simp only [hd] at h
    split_ifs at h with h12
    have hl := DecodeString_length s.data d hd
    have e : String.mk s.data = s := rfl
    rw [e] at hl
    have h24 : s.utf8ByteSize = 24 := by omega
    simp [IsObjectIdHex, hd, h24]

theorem DecodeString_isHexDigit : ∀ (l : List Char) (d : List (Fin 256)),
    DecodeString l = some d → ∀ ch ∈ l, isHexDigit ch = true
  | [], _, _ => by simp
  | [_], d, h => by simp [DecodeString] at h
  | a :: b :: rest, d, h => by
    rw [DecodeString] at h
    cases ha : fromHexChar a with
    | none => simp [ha] at h
    | some hi =>
      cases hb : fromHexChar b with
      | none => simp [ha, hb] at h
      | some lo =>
        cases hr : DecodeString rest with
        | none => simp [ha, hb, hr] at h
        | some tl =>
          have ih := DecodeString_isHexDigit rest tl hr
          intro ch hch
          simp only [List.mem_cons] at hch
          rcases hch with rfl | rfl | hch
          · simp [isHexDigit, ha]
          · simp [isHexDigit, hb]
          · exact ih ch hch

theorem DecodeString_isSome : ∀ (n : Nat) (l : List Char), l.length = 2 * n →
    (∀ ch ∈ l, isHexDigit ch = true) → ∃ d, DecodeString l = some d
  | 0, l, hl, _ => by
    have : l = [] := List.length_eq_zero.mp (by omega)
    subst this
    exact ⟨[], rfl⟩
  | n + 1, [], hl, _ => by simp at hl
  | n + 1, [_], hl, _ => by simp at hl; omega
  | n + 1, a :: b :: rest, hl, hall => by
    have hr : rest.length = 2 * n := by simp only [List.length_cons] at hl; omega
    obtain ⟨tl, htl⟩ := DecodeString_isSome n rest hr
      (fun ch hch => hall ch (List.mem_cons_of_mem _ (List.mem_cons_of_mem _ hch)))
    have ha := hall a (List.mem_cons_self _ _)
    have hb := hall b (List.mem_cons_of_mem _ (List.mem_cons_self _ _))
    obtain ⟨hi, hhi⟩ := Option.isSome_iff_exists.mp ha
    obtain ⟨lo, hlo⟩ := Option.isSome_iff_exists.mp hb
    exact ⟨Fin.ofNat (hi * 16 + lo) :: tl, by simp [DecodeString, hhi, hlo, htl]⟩

theorem utf8ByteSize_of_isHexDigit : ∀ l : List Char, (∀ ch ∈ l, isHexDigit ch = true) →
    (String.mk l).utf8ByteSize = l.length
  | [], _ => by simp [String.utf8ByteSize, String.utf8ByteSize.go]
  | a :: l, h => by
    obtain ⟨n, hn⟩ := Option.isSome_iff_exists.mp (h a (List.mem_cons_self _ _))
    rw [utf8ByteSize_mk_cons, utf8Size_of_fromHexChar a n hn,
      utf8ByteSize_of_isHexDigit l (fun ch hch => h ch (List.mem_cons_of_mem _ hch))]
    simp

/-- The texts `bson.IsObjectIdHex` accepts are the 24-character hexadecimal
strings. -/
theorem IsObjectIdHex_iff (s : String) : IsObjectIdHex s = true ↔ WellFormedId s := by
  have e : String.mk s.data = s := rfl
  constructor
  · intro h
    unfold IsObjectIdHex at h
    split_ifs at h with hs
    cases hd : DecodeString s.data with
    | none => simp [hd] at h
    | some d =>
      have hl := DecodeString_length s.data d hd
      rw [e] at hl
      simp only [ne_eq, Decidable.not_not] at hs
      refine ⟨?_, DecodeString_isHexDigit s.data d hd⟩
      show s.data.length = 24
      omega
  · rintro ⟨hlen, hall⟩
    have hlen2 : s.data.length = 24 := hlen
    have hb := utf8ByteSize_of_isHexDigit s.data hall
    rw [e] at hb
    obtain ⟨d, hd⟩ := DecodeString_isSome 12 s.data (by omega) hall
    have h24 : s.utf8ByteSize = 24 := by omega
    simp [IsObjectIdHex, hd, h24]

theorem foldl_Slice_append {α β : Type} (f : α → β) (l : List α) (a : α) (s : Slice β) :
    (a :: l).foldl (fun acc t => acc.append (f t)) s = .of (s.toList ++ (a :: l).map f) := by
  induction l generalizing a s with
  | nil => rfl
  | cons b l ih =>
    rw [List.foldl_cons, ih b (s.append (f a))]
    simp [Slice.append, Slice.toList]

theorem appended_toList (l : List todo) : (appended l).toList = l := by
  cases l <;> rfl

theorem appended_of_ne_nil (l : List todo) (h : l ≠ []) : appended l = .of l := by
  cases l with
  | nil => exact absurd rfl h
  | cons a l => rfl

/-- With the server answering, `fetchTodos` lists the collection record by
record; the data slice is the nil slice when the collection is empty. -/
theorem fetchTodos_none (c : Collection) :
    fetchTodos none c = (.json StatusOK [("data", .todos (appended (c.map toDTO)))], c) := by
  cases c with
  | nil => rfl
  | cons a c =>
    have h := foldl_Slice_append toDTO c a Slice.null
    simp only [fetchTodos, All]
    exact congrArg (fun x => (Outcome.json StatusOK [("data", Value.todos x)], a :: c)) h

/-- With the server answering, `fetchTodos` on a collection that is not empty
gives a data slice that is not nil. -/
theorem fetchTodos_none_of_ne_nil (c : Collection) (h : c ≠ []) :
    fetchTodos none c = (.json StatusOK [("data", .todos (.of (c.map toDTO)))], c) := by
  rw [fetchTodos_none, appended_of_ne_nil]
  simpa using h

theorem toDTO_injective : Function.Injective toDTO := by
  intro a b h
  have h1 : Hex a.ID = Hex b.ID := congrArg todo.ID h
  have h2 : a.Title = b.Title := congrArg todo.Title h
  have h3 : a.Completed = b.Completed := congrArg todo.Completed h
  have h4 : a.CreatedAt = b.CreatedAt := congrArg todo.CreatedAt h
  cases a
  cases b
  simp only at h1 h2 h3 h4
  rw [Hex_injective h1, h2, h3, h4]

/-- A successful `Insert`: the server answered, the `_id` was free and the
document is the last of the collection. -/
theorem Insert_ok (link : Option Error) (c c' : Collection) (doc : todoModel)
    (h : Insert link c doc = .ok c') :
    link = none ∧ (∀ d ∈ c, d.ID ≠ doc.ID) ∧ c' = c ++ [doc] := by
  unfold Insert at h
  cases link with
  | some e => simp at h
  | none =>
    simp only at h
    split_ifs at h with hany
    simp only [Except.ok.injEq] at h
    refine ⟨rfl, ?_, h.symm⟩
    intro d hd hid
    apply hany
    simp only [List.any_eq_true, decide_eq_true_eq]
    exact ⟨d, hd, hid⟩

theorem setFirst_append_last (id : ObjectId) (title : String) (completed : Bool)
    (x : todoModel) (hx : x.ID = id) :
    ∀ c : Collection, (∀ d ∈ c, d.ID ≠ id) →
      setFirst id title completed (c ++ [x])
        = some (c ++ [{ x with Title := title, Completed := completed }])
  | [], _ => by simp [setFirst, hx]
  | d :: ds, h => by
    have hd : d.ID ≠ id := h d (List.mem_cons_self d ds)
    have ih := setFirst_append_last id title completed x hx ds
      (fun y hy => h y (List.mem_cons_of_mem d hy))
    simp [setFirst, hd, ih]

theorem Update_ok (link : Option Error) (c c' : Collection) (id : ObjectId)
    (title : String) (completed : Bool) (h : Update link c id title completed = .ok c') :
    setFirst id title completed c = some c' := by
  unfold Update at h
  cases link with
  | some e => simp at h
  | none =>
    simp only at h
    cases hs : setFirst id title completed c with
    | none => simp [hs] at h
    | some c2 =>
      simp only [hs, Except.ok.injEq] at h
      rw [h]

theorem RemoveId_ok (link : Option Error) (c c' : Collection) (id : ObjectId)
    (h : RemoveId link c id = .ok c') : removeFirst id c = some c' := by
  unfold RemoveId at h
  cases link with
  | some e => simp at h
  | none =>
    simp only at h
    cases hs : removeFirst id c with
    | none => simp [hs] at h
    | some c2 =>
      simp only [hs, Except.ok.injEq] at h
      rw [h]

/-- The collection after `createTodo` is the one before, or the one before
with one more document, of a free `_id` and a non-empty title. -/
theorem createTodo_collection (newId : ObjectId) (now : Time) (link : Option Error)
    (body : Except Error todo) (c : Collection) :
    (createTodo newId now link body c).2 = c
    ∨ (∃ doc, doc.Title ≠ "" ∧ (∀ d ∈ c, d.ID ≠ doc.ID)
        ∧ (createTodo newId now link body c).2 = c ++ [doc]) := by
  simp only [createTodo]
  cases body with
  | error e => exact Or.inl rfl
  | ok t =>
    by_cases ht : t.Title = ""
    · simp [ht]
    · simp only [ht, if_false]
      cases hI : Insert link c ⟨newId, t.Title, false, now⟩ with
      | error e => exact Or.inl rfl
      | ok c' =>
        obtain ⟨_, h2, h3⟩ := Insert_ok _ _ _ _ hI
        exact Or.inr ⟨_, ht, h2, h3⟩

/-- The collection after `deleteTodo` is the one before, or the one before
without one document. -/
theorem deleteTodo_collection (link : Option Error) (param : String) (c : Collection) :
    (deleteTodo link param c).2 = c
    ∨ (∃ id, removeFirst id c = some (deleteTodo link param c).2) := by
  simp only [deleteTodo]
  cases hw : IsObjectIdHex (TrimSpace param) with
  | false => exact Or.inl rfl
  | true =>
    simp only [Bool.not_true, Bool.false_eq_true, if_false]
    cases ho : ObjectIdHex (TrimSpace param) with
    | none => exact Or.inl rfl
    | some oid =>
      simp only
      cases hR : RemoveId link c oid with
      | error e => exact Or.inl rfl
      | ok c' => exact Or.inr ⟨oid, RemoveId_ok _ _ _ _ hR⟩

/-- The collection after `updateTodo` is the one before, or the one before
with the two fields of one document set. -/
theorem updateTodo_collection (link : Option Error) (param : String)
    (body : Except Error todo) (c : Collection) :
    (updateTodo link param body c).2 = c
    ∨ (∃ id title completed,
        setFirst id title completed c = some (updateTodo link param body c).2) := by
  simp only [updateTodo]
  cases hw : IsObjectIdHex (TrimSpace param) with
  | false => exact Or.inl rfl
  | true =>
    simp only [Bool.not_true, Bool.false_eq_true, if_false]
    cases body with
    | error e => exact Or.inl rfl
    | ok t =>
      simp only
      cases ho : ObjectIdHex (TrimSpace param) with
      | none => exact Or.inl rfl
      | some oid =>
        simp only
        cases hU : Update link c oid t.Title t.Completed with
        | error e => exact Or.inl rfl
        | ok c' => exact Or.inr ⟨oid, _, _, Update_ok _ _ _ _ _ _ hU⟩

/-- Every handler leaves the collection as it is or changes it by the one
store call it makes. -/
theorem serve_collection (r : Request) (c : Collection) :
    (serve r c).2 = c
    ∨ (∃ doc, doc.Title ≠ "" ∧ (∀ d ∈ c, d.ID ≠ doc.ID) ∧ (serve r c).2 = c ++ [doc])
    ∨ (∃ id, removeFirst id c = some (serve r c).2)
    ∨ (∃ id title completed, setFirst id title completed c = some (serve r c).2) := by
  cases r with
  | getHome render => exact Or.inl rfl
  | getTodos link =>
    left
    cases link <;> rfl
  | postTodos newId now link body =>
    rcases createTodo_collection newId now link body c with h | h
    · exact Or.inl h
    · exact Or.inr (Or.inl h)
  | deleteTodos link param =>
    rcases deleteTodo_collection link param c with h | h
    · exact Or.inl h
    · exact Or.inr (Or.inr (Or.inl h))
  | putTodos link param body =>
    rcases updateTodo_collection link param body c with h | h
    · exact Or.inl h
    · exact Or.inr (Or.inr (Or.inr h))

/-- Every handler keeps the identifiers of the collection distinct. -/
theorem UniqueIds_serve (r : Request) (c : Collection) (h : UniqueIds c) :
    UniqueIds (serve r c).2 := by
  rcases serve_collection r c with e | ⟨doc, _, hfree, e⟩ | ⟨id, e⟩ | ⟨id, title, completed, e⟩
  · rw [e]
    exact h
  · rw [e]
    unfold UniqueIds at h ⊢
    rw [List.map_append, List.nodup_append]
    refine ⟨h, by simp, ?_⟩
    intro a ha hb
    simp only [List.map_cons, List.map_nil, List.mem_singleton] at hb
    obtain ⟨d, hd, hda⟩ := List.mem_map.mp ha
    exact hfree d hd (hda.trans hb)
  · obtain ⟨l, d, r, h1, h2, _⟩ := removeFirst_spec id c _ e
    rw [h2]
    unfold UniqueIds at h ⊢
    rw [h1] at h
    have hs : List.Sublist (l ++ r) (l ++ d :: r) :=
      List.Sublist.append (List.Sublist.refl l) (List.sublist_cons_self d r)
    exact List.Nodup.sublist (List.Sublist.map _ hs) h
  · have hm := (setFirst_spec id title completed c _ e).2
    have hm2 := congrArg (List.map Prod.fst) hm
    simp only [List.map_map] at hm2
    unfold UniqueIds at h ⊢
    have e1 : (Prod.fst ∘ fun d : todoModel => (d.ID, d.CreatedAt)) = fun d => d.ID := rfl
    rw [e1] at hm2
    rw [hm2]
    exact h

/-- Every sequence of requests keeps the identifiers of the collection
distinct. -/
theorem UniqueIds_run (rs : List Request) (c : Collection) (h : UniqueIds c) :
    UniqueIds (run rs c) := by
  induction rs generalizing c with
  | nil => exact h
  | cons r rs ih =>
    simp only [run, List.foldl_cons]
    exact ih _ (UniqueIds_serve r c h)

/-- No handler makes a second document of an `_id`. -/
theorem occurrences_serve (id : ObjectId) (r : Request) (c : Collection)
    (h : occurrences id c ≤ 1) : occurrences id (serve r c).2 ≤ 1 := by
  rcases serve_collection r c with e | ⟨doc, _, hfree, e⟩ | ⟨x, e⟩ | ⟨x, title, completed, e⟩
  · rw [e]
    exact h
  · rw [e]
    unfold occurrences at h ⊢
    rw [List.map_append, List.count_append, List.map_cons, List.map_nil]
    by_cases hd : doc.ID = id
    · have h0 : List.count id (c.map fun d => d.ID) = 0 := by
        apply List.count_eq_zero_of_not_mem
        intro hm
        obtain ⟨d, hd1, hd2⟩ := List.mem_map.mp hm
        exact hfree d hd1 (hd2.trans hd.symm)
      rw [h0, hd, List.count_singleton_self]
    · have h1 : List.count id [doc.ID] = 0 := by
        apply List.count_eq_zero_of_not_mem
        simp only [List.mem_singleton]
        exact fun e2 => hd e2.symm
      rw [h1]
      exact h
  · obtain ⟨l, d, r2, h1, h2, _⟩ := removeFirst_spec x c _ e
    rw [h2]
    unfold occurrences at h ⊢
    rw [h1] at h
    have hs : List.Sublist (l ++ r2) (l ++ d :: r2) :=
      List.Sublist.append (List.Sublist.refl l) (List.sublist_cons_self d r2)
    exact le_trans (List.Sublist.count_le (List.Sublist.map _ hs) id) h
  · have hm := (setFirst_spec x title completed c _ e).2
    have hm2 := congrArg (List.map Prod.fst) hm
    simp only [List.map_map] at hm2
    have e1 : (Prod.fst ∘ fun d : todoModel => (d.ID, d.CreatedAt)) = fun d => d.ID := rfl
    rw [e1] at hm2
    unfold occurrences at h ⊢
    rw [hm2]
    exact h

/-- No sequence of requests makes a second document of an `_id`. -/
theorem occurrences_run (id : ObjectId) (rs : List Request) (c : Collection)
    (h : occurrences id c ≤ 1) : occurrences id (run rs c) ≤ 1 := by
  induction rs generalizing c with
  | nil => exact h
  | cons r rs ih =>
    simp only [run, List.foldl_cons]
    exact ih _ (occurrences_serve id r c h)

/-- What a 201 of `createTodo` tells: the body parsed, its title is not empty,
the insert of the new record succeeded and the identifier in the response is
the hexadecimal text of the generated one. -/
theorem createTodo_created (newId : ObjectId) (now : Time) (link : Option Error)
    (body : Except Error todo) (c c1 : Collection) (m : M)
    (h : createTodo newId now link body c = (.json StatusCreated m, c1)) :
    ∃ t, body = .ok t ∧ t.Title ≠ ""
      ∧ Insert link c ⟨newId, t.Title, false, now⟩ = .ok c1
      ∧ m = [("message", .text "Todo created successfully"), ("todo_id", .text (Hex newId))] := by
  unfold createTodo at h
  cases body with
  | error e => simp [StatusBadRequest, StatusCreated] at h
  | ok t =>
    simp only at h
    by_cases ht : t.Title = ""
    · simp [ht, StatusBadRequest, StatusCreated] at h
    · simp only [ht, if_false] at h
      cases hI : Insert link c ⟨newId, t.Title, false, now⟩ with
      | error e => simp [hI, StatusInternalServerError, StatusCreated] at h
      | ok c' =>
        simp only [hI, Prod.mk.injEq, Outcome.json.injEq, true_and] at h
        exact ⟨t, rfl, ht, h.2 ▸ hI, h.1.symm⟩

/-- What a 200 of `deleteTodo` tells: the trimmed parameter reads as an
identifier and the removal of its record succeeded. -/
theorem deleteTodo_ok (link : Option Error) (param : String) (c c' : Collection) (m : M)
    (h : deleteTodo link param c = (.json StatusOK m, c')) :
    ∃ oid, ObjectIdHex (TrimSpace param) = some oid ∧ RemoveId link c oid = .ok c' := by
  unfold deleteTodo at h
  simp only at h
  cases hw : IsObjectIdHex (TrimSpace param) with
  | false => simp [hw, StatusBadRequest, StatusOK] at h
  | true =>
    simp only [hw, Bool.not_true, Bool.false_eq_true, if_false] at h
    cases ho : ObjectIdHex (TrimSpace param) with
    | none => simp [ho] at h
    | some oid =>
      simp only [ho] at h
      cases hR : RemoveId link c oid with
      | error e => simp [hR, StatusInternalServerError, StatusOK] at h
      | ok c2 =>
        simp only [hR, Prod.mk.injEq] at h
        exact ⟨oid, rfl, h.2 ▸ hR⟩

/-- What a 200 of `updateTodo` tells: the trimmed parameter reads as an
identifier and the update of its record succeeded. -/
theorem updateTodo_ok (link : Option Error) (param : String) (t : todo)
    (c c' : Collection) (m : M)
    (h : updateTodo link param (.ok t) c = (.json StatusOK m, c')) :
    ∃ oid, ObjectIdHex (TrimSpace param) = some oid
      ∧ Update link c oid t.Title t.Completed = .ok c' := by
  unfold updateTodo at h
  simp only at h
  cases hw : IsObjectIdHex (TrimSpace param) with
  | false => simp [hw, StatusBadRequest, StatusOK] at h
  | true =>
    simp only [hw, Bool.not_true, Bool.false_eq_true, if_false] at h
    cases ho : ObjectIdHex (TrimSpace param) with
    | none => simp [ho] at h
    | some oid =>
      simp only [ho] at h
      cases hU : Update link c oid t.Title t.Completed with
      | error e => simp [hU, StatusInternalServerError, StatusOK] at h
      | ok c2 =>
        simp only [hU, Prod.mk.injEq] at h
        exact ⟨oid, rfl, h.2 ▸ hU⟩

theorem AllTitled_createTodo (newId : ObjectId) (now : Time) (link : Option Error)
    (body : Except Error todo) (c : Collection) (h : AllTitled c) :
    AllTitled (createTodo newId now link body c).2 := by
  rcases createTodo_collection newId now link body c with e | ⟨doc, hdoc, _, e⟩
  · rw [e]
    exact h
  · rw [e]
    intro d hd
    rcases List.mem_append.mp hd with hd | hd
    · exact h d hd
    · rw [List.mem_singleton.mp hd]
      exact hdoc

theorem AllTitled_deleteTodo (link : Option Error) (param : String) (c : Collection)
    (h : AllTitled c) : AllTitled (deleteTodo link param c).2 := by
  rcases deleteTodo_collection link param c with e | ⟨id, e⟩
  · rw [e]
    exact h
  · obtain ⟨l, x, r, h1, h2, _⟩ := removeFirst_spec id c _ e
    rw [h2]
    intro d hd
    apply h d
    rw [h1]
    rcases List.mem_append.mp hd with hd | hd
    · exact List.mem_append_left _ hd
    · exact List.mem_append_right _ (List.mem_cons_of_mem _ hd)

/-! ## The claims -/

/-- C1, as amended: for every create request whose body parses and whose title
is the empty string, whatever the store would answer, `createTodo` responds
with status 400 and the stored collection is unchanged. -/
theorem createTodo_empty_title (newId : ObjectId) (now : Time) (link : Option Error)
    (t : todo) (c : Collection) (h : t.Title = "") :
    createTodo newId now link (.ok t) c
      = (.json StatusBadRequest [("message", .text "Title is required")], c)
    ∧ (createTodo newId now link (.ok t) c).1.status? = some 400 := by
  simp [createTodo, h, Outcome.status?, StatusBadRequest]

theorem createTodo_empty_title_witness :
    createTodo (sampleId 7) 5 none (.ok ⟨"ignored", "", true, 9⟩) [⟨sampleId 1, "a", false, 2⟩]
      = (.json StatusBadRequest [("message", .text "Title is required")],
          [⟨sampleId 1, "a", false, 2⟩])
    ∧ (createTodo (sampleId 7) 5 none (.ok ⟨"ignored", "", true, 9⟩)
        [⟨sampleId 1, "a", false, 2⟩]).1.status? = some 400 :=
  createTodo_empty_title (sampleId 7) 5 none ⟨"ignored", "", true, 9⟩
    [⟨sampleId 1, "a", false, 2⟩] rfl

/-- C1, the counterexample: a title of one blank is white space only, yet with
the server answering on an empty collection `createTodo` responds with status
201 and the record is stored. -/
theorem createTodo_blank_title_stored :
    isBlank " " = true
    ∧ createTodo (sampleId 7) 5 none (.ok ⟨"", " ", false, 0⟩) []
      = (.json 201 [("message", .text "Todo created successfully"),
            ("todo_id", .text "070707070707070707070707")],
          [⟨sampleId 7, " ", false, 5⟩]) := by
  decide

/-- C2, as amended: for every well-formed identifier that matches no stored
record and every parseable body, `updateTodo` responds with status 500 (the
message is "Failed to update todo"; with the server answering the error is the
driver's not-found) and leaves the stored collection unchanged. -/
theorem updateTodo_missing_id (link : Option Error) (param : String) (t : todo)
    (c : Collection) (oid : ObjectId)
    (hid : ObjectIdHex (TrimSpace param) = some oid)
    (hmiss : ∀ d ∈ c, d.ID ≠ oid) :
    ∃ err, updateTodo link param (.ok t) c
        = (.json StatusInternalServerError
            [("message", .text "Failed to update todo"), ("error", .fault err)], c)
      ∧ (updateTodo link param (.ok t) c).1.status? = some 500
      ∧ (link = none → err = Error.notFound) := by
  have hwf := IsObjectIdHex_of_ObjectIdHex _ _ hid
  cases link with
  | some e =>
    exact ⟨e, by simp [updateTodo, hwf, hid, Update],
      by simp [updateTodo, hwf, hid, Update, Outcome.status?, StatusInternalServerError],
      by simp⟩
  | none =>
    have hs := setFirst_eq_none oid t.Title t.Completed c hmiss
    exact ⟨Error.notFound, by simp [updateTodo, hwf, hid, Update, hs],
      by simp [updateTodo, hwf, hid, Update, hs, Outcome.status?, StatusInternalServerError],
      fun _ => rfl⟩

theorem updateTodo_missing_id_witness :
    ∃ err, updateTodo none " 0a0a0a0a0a0a0a0a0a0a0a0a\n" (.ok ⟨"", "x", true, 0⟩)
          [⟨sampleId 1, "a", false, 2⟩]
        = (.json StatusInternalServerError
            [("message", .text "Failed to update todo"), ("error", .fault err)],
            [⟨sampleId 1, "a", false, 2⟩])
      ∧ (updateTodo none " 0a0a0a0a0a0a0a0a0a0a0a0a\n" (.ok ⟨"", "x", true, 0⟩)
          [⟨sampleId 1, "a", false, 2⟩]).1.status? = some 500
      ∧ ((none : Option Error) = none → err = Error.notFound) :=
  updateTodo_missing_id none " 0a0a0a0a0a0a0a0a0a0a0a0a\n" ⟨"", "x", true, 0⟩
    [⟨sampleId 1, "a", false, 2⟩] (sampleId 10) (by decide) (by decide)

/-- C2, the counterexample: the identifier is well formed and the collection is
empty, so it matches no record; with the server answering, `updateTodo`
responds with status 500 and the driver's not-found error, not with 200. -/
theorem updateTodo_missing_id_is_500 :
    IsObjectIdHex (TrimSpace "000000000000000000000000") = true
    ∧ updateTodo none "000000000000000000000000" (.ok ⟨"", "x", true, 0⟩) []
      = (.json 500 [("message", .text "Failed to update todo"),
            ("error", .fault .notFound)], []) := by
  decide

/-- C4: for every `id` path parameter that, once trimmed, is not a
24-character hexadecimal string, `updateTodo` and `deleteTodo` each respond
with status 400, whatever the body, the collection and the state of the link
to the server are, and the stored collection is unchanged. -/
theorem malformed_id_rejected (link : Option Error) (param : String)
    (body : Except Error todo) (c : Collection)
    (h : ¬ WellFormedId (TrimSpace param)) :
    updateTodo link param body c = (.json StatusBadRequest [("message", .text "Invalid ID")], c)
    ∧ deleteTodo link param c = (.json StatusBadRequest [("message", .text "Invalid ID")], c)
    ∧ (updateTodo link param body c).1.status? = some 400
    ∧ (deleteTodo link param c).1.status? = some 400 := by
  have hf : IsObjectIdHex (TrimSpace param) = false := by
    cases hb : IsObjectIdHex (TrimSpace param) with
    | false => rfl
    | true => exact absurd ((IsObjectIdHex_iff _).mp hb) h
  simp [updateTodo, deleteTodo, hf, Outcome.status?, StatusBadRequest]

theorem malformed_id_rejected_witness :
    updateTodo none " 12xyz " (.ok ⟨"", "x", true, 0⟩) [⟨sampleId 1, "a", false, 2⟩]
      = (.json StatusBadRequest [("message", .text "Invalid ID")], [⟨sampleId 1, "a", false, 2⟩])
    ∧ deleteTodo none " 12xyz " [⟨sampleId 1, "a", false, 2⟩]
      = (.json StatusBadRequest [("message", .text "Invalid ID")], [⟨sampleId 1, "a", false, 2⟩])
    ∧ (updateTodo none " 12xyz " (.ok ⟨"", "x", true, 0⟩)
        [⟨sampleId 1, "a", false, 2⟩]).1.status? = some 400
    ∧ (deleteTodo none " 12xyz " [⟨sampleId 1, "a", false, 2⟩]).1.status? = some 400 :=
  malformed_id_rejected none " 12xyz " (.ok ⟨"", "x", true, 0⟩) [⟨sampleId 1, "a", false, 2⟩]
    (by unfold WellFormedId; decide)

/-- C7, as amended: for every sequence of records the store returns,
`fetchTodos` responds with status 200 and a data slice with one DTO for each
record, in the same order; each DTO has the record's title, completed flag and
creation time, and the hexadecimal text of its identifier; distinct records
give distinct DTOs. When there are records the data is the array of their
DTOs; when there are none it is Go's nil slice, which is written as JSON
`null`, and not an empty array. -/
theorem fetchTodos_lists_records (link : Option Error) (c : Collection)
    (records : List todoModel) (h : All link c = .ok records) :
    ∃ data, fetchTodos link c = (.json StatusOK [("data", .todos data)], c)
      ∧ (fetchTodos link c).1.status? = some 200
      ∧ data.toList = records.map toDTO
      ∧ data.toList.length = records.length
      ∧ (∀ i : Nat, data.toList[i]? = (records[i]?).map toDTO)
      ∧ (∀ t, (toDTO t).ID = Hex t.ID ∧ (toDTO t).Title = t.Title
          ∧ (toDTO t).Completed = t.Completed ∧ (toDTO t).CreatedAt = t.CreatedAt)
      ∧ (records ≠ [] → data = .of (records.map toDTO))
      ∧ (records = [] → data = .null)
      ∧ Function.Injective toDTO
      ∧ Function.Injective (List.map toDTO) := by
  cases link with
  | some e => simp [All] at h
  | none =>
    simp only [All, Except.ok.injEq] at h
    subst h
    refine ⟨appended (c.map toDTO), fetchTodos_none c, ?_, appended_toList _, ?_, ?_,
      fun t => ⟨rfl, rfl, rfl, rfl⟩, ?_, ?_, toDTO_injective,
      List.map_injective_iff.mpr toDTO_injective⟩
    · rw [fetchTodos_none]
      rfl
    · rw [appended_toList, List.length_map]
    · intro i
      rw [appended_toList]
      simp
    · intro hne
      exact appended_of_ne_nil _ (by simpa using hne)
    · intro e
      rw [e]
      rfl

theorem fetchTodos_lists_records_witness :
    ∃ data, fetchTodos none [⟨sampleId 1, "a", false, 2⟩, ⟨sampleId 171, "b", true, 3⟩]
        = (.json StatusOK [("data", .todos data)],
            [⟨sampleId 1, "a", false, 2⟩, ⟨sampleId 171, "b", true, 3⟩])
      ∧ data = .of [⟨"010101010101010101010101", "a", false, 2⟩,
          ⟨"abababababababababababab", "b", true, 3⟩] := by
  obtain ⟨data, h1, _, _, _, _, _, h7, _⟩ := fetchTodos_lists_records none
    [⟨sampleId 1, "a", false, 2⟩, ⟨sampleId 171, "b", true, 3⟩]
    [⟨sampleId 1, "a", false, 2⟩, ⟨sampleId 171, "b", true, 3⟩] rfl
  exact ⟨data, h1, h7 (by decide)⟩

/-- C7, the counterexample: on the empty store, with the server answering,
the data `fetchTodos` hands to the renderer is the nil slice, written as JSON
`null`, and not the empty array. -/
theorem fetchTodos_empty_store_is_null :
    fetchTodos none [] = (.json 200 [("data", .todos .null)], [])
    ∧ fetchTodos none [] ≠ (.json 200 [("data", .todos (.of []))], []) := by
  decide

/-- C8: the code at the failing input. When `rnd.Template` returns an error,
`homeHandler` hands it to `checkErr`, which logs it and terminates the process
(`log.Fatal`), and writes no response with status 500. A panic of
`rnd.Template` does not terminate the process, and when rendering succeeds the
page is the response, with status 200. -/
theorem homeHandler_returned_error_is_fatal (err : Error) (msg html : String) :
    homeHandler (.failed err) = .fatal err
    ∧ (homeHandler (.failed err)).exits = true
    ∧ (homeHandler (.failed err)).status? = none
    ∧ homeHandler (.panics msg) = .panicked msg
    ∧ (homeHandler (.panics msg)).exits = false
    ∧ homeHandler (.page html) = .html StatusOK html := by
  simp [homeHandler, checkErr, Outcome.status?, Outcome.exits]

/-- C9: client input never determines a created record's id or createdAt. Two
create requests whose bodies parse with the same non-empty title, whatever
their id, completed and createdAt fields, get the same response and leave the
same collection, given the same generated identifier, clock reading and store;
the collection afterwards is the one before, or the one before with the record
of the generated identifier, the title, completed = false and the clock
reading; and that record is stored, the response being 201 with the
identifier's hexadecimal text, when the insert succeeds. -/
theorem createTodo_ignores_client_fields (newId : ObjectId) (now : Time)
    (link : Option Error) (b1 b2 : todo) (c : Collection)
    (htitle : b1.Title = b2.Title) (hne : b1.Title ≠ "") :
    createTodo newId now link (.ok b1) c = createTodo newId now link (.ok b2) c
    ∧ ((createTodo newId now link (.ok b1) c).2 = c
        ∨ (createTodo newId now link (.ok b1) c).2 = c ++ [⟨newId, b1.Title, false, now⟩])
    ∧ (∀ c', Insert link c ⟨newId, b1.Title, false, now⟩ = .ok c' →
        c' = c ++ [⟨newId, b1.Title, false, now⟩]
        ∧ createTodo newId now link (.ok b1) c
          = (.json StatusCreated [("message", .text "Todo created successfully"),
              ("todo_id", .text (Hex newId))], c ++ [⟨newId, b1.Title, false, now⟩])) := by
  have hne2 : b2.Title ≠ "" := htitle ▸ hne
  refine ⟨by simp [createTodo, hne, hne2, htitle], ?_, ?_⟩
  · simp only [createTodo, hne, if_false]
    cases hI : Insert link c ⟨newId, b1.Title, false, now⟩ with
    | error e => exact Or.inl rfl
    | ok c' =>
      right
      unfold Insert at hI
      cases link with
      | some e => simp at hI
      | none =>
        simp only at hI
        split_ifs at hI
        simp only [Except.ok.injEq] at hI
        exact hI.symm
  · intro c' hI
    have hc : c' = c ++ [⟨newId, b1.Title, false, now⟩] := by
      unfold Insert at hI
      cases link with
      | some e => simp at hI
      | none =>
        simp only at hI
        split_ifs at hI
        simp only [Except.ok.injEq] at hI
        exact hI.symm
    refine ⟨hc, ?_⟩
    simp only [createTodo, hne, if_false, hI]
    rw [hc]

theorem createTodo_ignores_client_fields_witness :
    createTodo (sampleId 7) 5 none (.ok ⟨"id-a", "Buy milk", true, 1⟩) []
      = createTodo (sampleId 7) 5 none (.ok ⟨"id-b", "Buy milk", false, 99⟩) []
    ∧ (createTodo (sampleId 7) 5 none (.ok ⟨"id-a", "Buy milk", true, 1⟩) []).2
        = [⟨sampleId 7, "Buy milk", false, 5⟩] :=
  ⟨(createTodo_ignores_client_fields (sampleId 7) 5 none ⟨"id-a", "Buy milk", true, 1⟩
      ⟨"id-b", "Buy milk", false, 99⟩ [] rfl (by decide)).1, by decide⟩

/-- C3: for every create request whose body parses with a non-empty title,
whatever completed the body carries, if the store insert succeeds then
`createTodo` responds with status 201 and the identifier's hexadecimal text,
and the list `fetchTodos` returns next contains the record with that
identifier, exactly that title, completed = false and the clock reading. -/
theorem createTodo_then_fetch (newId : ObjectId) (now : Time) (link : Option Error)
    (t : todo) (c c' : Collection) (hne : t.Title ≠ "")
    (hins : Insert link c ⟨newId, t.Title, false, now⟩ = .ok c') :
    createTodo newId now link (.ok t) c
      = (.json StatusCreated [("message", .text "Todo created successfully"),
          ("todo_id", .text (Hex newId))], c')
    ∧ (createTodo newId now link (.ok t) c).1.status? = some 201
    ∧ ∃ l, fetchTodos none c' = (.json StatusOK [("data", .todos (.of l))], c')
        ∧ (fetchTodos none c').1.status? = some 200
        ∧ (⟨Hex newId, t.Title, false, now⟩ : todo) ∈ l
        ∧ ∃ d ∈ l, d.Title = t.Title ∧ d.Completed = false := by
  obtain ⟨_, _, hc⟩ := Insert_ok _ _ _ _ hins
  have hmem : (⟨Hex newId, t.Title, false, now⟩ : todo) ∈ c'.map toDTO := by
    rw [hc, List.map_append]
    exact List.mem_append_right _ (List.mem_singleton.mpr rfl)
  have hne' : c' ≠ [] := by
    rw [hc]
    simp
  refine ⟨by simp [createTodo, hne, hins], by simp [createTodo, hne, hins, Outcome.status?,
    StatusCreated], c'.map toDTO, fetchTodos_none_of_ne_nil c' hne', ?_, hmem, _, hmem, rfl, rfl⟩
  rw [fetchTodos_none]
  rfl

theorem createTodo_then_fetch_witness :
    createTodo (sampleId 7) 5 none (.ok ⟨"", "Buy milk", true, 0⟩) [⟨sampleId 1, "a", true, 2⟩]
      = (.json StatusCreated [("message", .text "Todo created successfully"),
          ("todo_id", .text (Hex (sampleId 7)))],
          [⟨sampleId 1, "a", true, 2⟩, ⟨sampleId 7, "Buy milk", false, 5⟩]) :=
  (createTodo_then_fetch (sampleId 7) 5 none ⟨"", "Buy milk", true, 0⟩
    [⟨sampleId 1, "a", true, 2⟩] [⟨sampleId 1, "a", true, 2⟩, ⟨sampleId 7, "Buy milk", false, 5⟩]
    (by decide) rfl).1

/-- C5: let `createTodo` respond 201 with the identifier `h`, and let any
requests follow. When `deleteTodo` is then called with `h` and responds 200,
the removal having succeeded, `fetchTodos` next returns a list in which no
record has the identifier `h`. -/
theorem delete_then_fetch (c0 c1 c3 : Collection) (newId : ObjectId) (now : Time)
    (link dlink : Option Error) (body : Except Error todo) (h : String)
    (rs : List Request) (m : M)
    (hcreate : createTodo newId now link body c0
      = (.json StatusCreated [("message", .text "Todo created successfully"),
          ("todo_id", .text h)], c1))
    (hdel : deleteTodo dlink h (run rs c1) = (.json StatusOK m, c3)) :
    h = Hex newId
    ∧ RemoveId dlink (run rs c1) newId = .ok c3
    ∧ ∃ data, fetchTodos none c3 = (.json StatusOK [("data", .todos data)], c3)
        ∧ (fetchTodos none c3).1.status? = some 200
        ∧ data.toList = c3.map toDTO
        ∧ ∀ d ∈ data.toList, d.ID ≠ h := by
  obtain ⟨t, _, _, hI, hm⟩ := createTodo_created _ _ _ _ _ _ _ hcreate
  have hh : h = Hex newId := by
    simp only [List.cons.injEq, Prod.mk.injEq, Value.text.injEq, true_and, and_true] at hm
    exact hm
  subst hh
  obtain ⟨_, hfree, hc1⟩ := Insert_ok _ _ _ _ hI
  have hfree2 : ∀ d ∈ c0, d.ID ≠ newId := hfree
  have ho1 : occurrences newId c1 ≤ 1 := by
    have h0 : List.count newId (c0.map fun d => d.ID) = 0 := by
      apply List.count_eq_zero_of_not_mem
      intro hmem
      obtain ⟨d, hd1, hd2⟩ := List.mem_map.mp hmem
      exact hfree2 d hd1 hd2
    unfold occurrences
    rw [hc1, List.map_append, List.count_append, h0, List.map_cons, List.map_nil,
      List.count_singleton_self]
  have ho2 : occurrences newId (run rs c1) ≤ 1 := occurrences_run newId rs c1 ho1
  obtain ⟨oid, ho, hR⟩ := deleteTodo_ok _ _ _ _ _ hdel
  rw [TrimSpace_Hex, ObjectIdHex_Hex] at ho
  have ho3 : newId = oid := Option.some.inj ho
  subst ho3
  refine ⟨rfl, hR, appended (c3.map toDTO), fetchTodos_none c3,
    by rw [fetchTodos_none]; rfl, appended_toList _, ?_⟩
  obtain ⟨l, x, r, h1, h2, h3⟩ := removeFirst_spec _ _ _ (RemoveId_ok _ _ _ _ hR)
  intro d hd hid
  rw [appended_toList] at hd
  obtain ⟨y, hy, rfl⟩ := List.mem_map.mp hd
  have hyid : y.ID = newId := Hex_injective hid
  unfold occurrences at ho2
  rw [h1, List.map_append, List.map_cons, List.count_append, h3, List.count_cons_self] at ho2
  have hpos : 0 < List.count newId (c3.map fun d => d.ID) :=
    List.count_pos_iff.mpr (List.mem_map.mpr ⟨y, hy, hyid⟩)
  rw [h2, List.map_append, List.count_append] at hpos
  omega

theorem delete_then_fetch_witness :
    "070707070707070707070707" = Hex (sampleId 7)
    ∧ RemoveId none
        (run [.postTodos (sampleId 9) 6 none (.ok ⟨"", "Walk", false, 0⟩),
              .putTodos none "070707070707070707070707" (.ok ⟨"", "Buy bread", true, 0⟩)]
          [⟨sampleId 7, "Buy milk", false, 5⟩])
        (sampleId 7) = .ok [⟨sampleId 9, "Walk", false, 6⟩]
    ∧ ∃ data, fetchTodos none [⟨sampleId 9, "Walk", false, 6⟩]
          = (.json StatusOK [("data", .todos data)], [⟨sampleId 9, "Walk", false, 6⟩])
        ∧ (fetchTodos none [⟨sampleId 9, "Walk", false, 6⟩]).1.status? = some 200
        ∧ data.toList = [⟨sampleId 9, "Walk", false, 6⟩].map toDTO
        ∧ ∀ d ∈ data.toList, d.ID ≠ "070707070707070707070707" :=
  delete_then_fetch [] [⟨sampleId 7, "Buy milk", false, 5⟩] [⟨sampleId 9, "Walk", false, 6⟩]
    (sampleId 7) 5 none none (.ok ⟨"", "Buy milk", false, 0⟩) "070707070707070707070707"
    [.postTodos (sampleId 9) 6 none (.ok ⟨"", "Walk", false, 0⟩),
     .putTodos none "070707070707070707070707" (.ok ⟨"", "Buy bread", true, 0⟩)]
    [("message", .text "Todo deleted successfully")]
    (by decide) (by decide)

/-- C6: let `createTodo` with title T respond 201 with the identifier `h`.
Then `h` is the hexadecimal text of the generated identifier and `updateTodo`
accepts it as well formed and reads that identifier from it; `fetchTodos`
lists the records that were there, none of identifier `h`, and then the record
`h` with title T, completed = false and the creation time set by `createTodo`;
with the server answering, `updateTodo` with `h` and a body of title T2 and
completed c responds 200; and after any `updateTodo` with `h` and that body
that responds 200, `fetchTodos` lists the same records with, in that place,
the record `h` with title T2, completed c and the same creation time. -/
theorem create_update_roundtrip (newId : ObjectId) (now : Time) (link : Option Error)
    (t t2 : todo) (c c1 : Collection) (h : String)
    (hcreate : createTodo newId now link (.ok t) c
      = (.json StatusCreated [("message", .text "Todo created successfully"),
          ("todo_id", .text h)], c1)) :
    h = Hex newId
    ∧ IsObjectIdHex (TrimSpace h) = true
    ∧ ObjectIdHex (TrimSpace h) = some newId
    ∧ fetchTodos none c1
        = (.json StatusOK
            [("data", .todos (.of (c.map toDTO ++ [⟨h, t.Title, false, now⟩])))], c1)
    ∧ (∀ d ∈ c.map toDTO, d.ID ≠ h)
    ∧ (∃ c2, updateTodo none h (.ok t2) c1
        = (.json StatusOK [("message", .text "Todo updated successfully")], c2))
    ∧ (∀ ulink m2 c2, updateTodo ulink h (.ok t2) c1 = (.json StatusOK m2, c2) →
        fetchTodos none c2
          = (.json StatusOK
              [("data", .todos (.of (c.map toDTO ++ [⟨h, t2.Title, t2.Completed, now⟩])))],
              c2)) := by
  obtain ⟨t', ht', _, hI, hm⟩ := createTodo_created _ _ _ _ _ _ _ hcreate
  have ht : t' = t := (Except.ok.inj ht').symm
  subst ht
  have hh : h = Hex newId := by
    simp only [List.cons.injEq, Prod.mk.injEq, Value.text.injEq, true_and, and_true] at hm
    exact hm
  subst hh
  obtain ⟨_, hfree, hc1⟩ := Insert_ok _ _ _ _ hI
  have hfree2 : ∀ d ∈ c, d.ID ≠ newId := hfree
  have hs2 := setFirst_append_last newId t2.Title t2.Completed
    ⟨newId, t'.Title, false, now⟩ rfl c hfree2
  have hw : IsObjectIdHex (Hex newId) = true := IsObjectIdHex_Hex newId
  have hlist : ∀ (x : todoModel), c ++ [x] ≠ [] := by
    intro x
    simp
  refine ⟨rfl, ?_, ?_, ?_, ?_, ?_, ?_⟩
  · rw [TrimSpace_Hex]
    exact hw
  · rw [TrimSpace_Hex]
    exact ObjectIdHex_Hex newId
  · rw [hc1, fetchTodos_none_of_ne_nil _ (hlist _), List.map_append]
    rfl
  · intro d hd hid
    obtain ⟨y, hy, rfl⟩ := List.mem_map.mp hd
    exact hfree2 y hy (Hex_injective hid)
  · refine ⟨c ++ [⟨newId, t2.Title, t2.Completed, now⟩], ?_⟩
    simp only [updateTodo, TrimSpace_Hex, hw, ObjectIdHex_Hex, Update, Bool.not_true,
      Bool.false_eq_true, if_false]
    rw [hc1, hs2]
  · intro ulink m2 c2 hupdate
    obtain ⟨oid, ho, hU⟩ := updateTodo_ok _ _ _ _ _ _ hupdate
    rw [TrimSpace_Hex, ObjectIdHex_Hex] at ho
    have ho2 : newId = oid := Option.some.inj ho
    subst ho2
    have hs := Update_ok _ _ _ _ _ _ hU
    rw [hc1, hs2] at hs
    have hc2 : c2 = c ++ [⟨newId, t2.Title, t2.Completed, now⟩] := (Option.some.inj hs).symm
    rw [hc2, fetchTodos_none_of_ne_nil _ (hlist _), List.map_append]
    rfl

theorem create_update_roundtrip_witness :
    fetchTodos none [⟨sampleId 1, "a", true, 2⟩, ⟨sampleId 7, "Buy milk", false, 5⟩]
      = (.json StatusOK [("data", .todos (.of ([⟨sampleId 1, "a", true, 2⟩].map toDTO
          ++ [⟨"070707070707070707070707", "Buy milk", false, 5⟩])))],
          [⟨sampleId 1, "a", true, 2⟩, ⟨sampleId 7, "Buy milk", false, 5⟩])
    ∧ fetchTodos none [⟨sampleId 1, "a", true, 2⟩, ⟨sampleId 7, "Buy bread", true, 5⟩]
      = (.json StatusOK [("data", .todos (.of ([⟨sampleId 1, "a", true, 2⟩].map toDTO
          ++ [⟨"070707070707070707070707", "Buy bread", true, 5⟩])))],
          [⟨sampleId 1, "a", true, 2⟩, ⟨sampleId 7, "Buy bread", true, 5⟩]) := by
  obtain ⟨_, _, _, h4, _, _, h7⟩ := create_update_roundtrip (sampleId 7) 5 none
    ⟨"", "Buy milk", false, 0⟩ ⟨"", "Buy bread", true, 0⟩ [⟨sampleId 1, "a", true, 2⟩]
    [⟨sampleId 1, "a", true, 2⟩, ⟨sampleId 7, "Buy milk", false, 5⟩]
    "070707070707070707070707" (by decide)
  exact ⟨h4, h7 none [("message", .text "Todo updated successfully")]
    [⟨sampleId 1, "a", true, 2⟩, ⟨sampleId 7, "Buy bread", true, 5⟩] (by decide)⟩

/-- C10: `updateTodo` does not validate the title. For every well-formed
identifier of an existing record and every parseable body whose title is empty
(or missing, which decodes to the empty title), with the server answering,
`updateTodo` responds with status 200 and the record of that identifier has the
empty title afterwards; so the collection afterwards does not have all titles
non-empty, a property that `createTodo` and `deleteTodo` preserve on every
request and every collection. -/
theorem updateTodo_empty_title (param : String) (t : todo) (c : Collection)
    (oid : ObjectId)
    (hid : ObjectIdHex (TrimSpace param) = some oid)
    (hex : ∃ d ∈ c, d.ID = oid)
    (ht : t.Title = "") :
    (∃ c', updateTodo none param (.ok t) c
        = (.json StatusOK [("message", .text "Todo updated successfully")], c')
      ∧ (updateTodo none param (.ok t) c).1.status? = some 200
      ∧ (∃ d ∈ c', d.ID = oid ∧ d.Title = "" ∧ d.Completed = t.Completed)
      ∧ c'.map (fun d => (d.ID, d.CreatedAt)) = c.map (fun d => (d.ID, d.CreatedAt))
      ∧ ¬ AllTitled c')
    ∧ (∀ c0 newId now link body, AllTitled c0 →
        AllTitled (createTodo newId now link body c0).2)
    ∧ (∀ c0 link p, AllTitled c0 → AllTitled (deleteTodo link p c0).2) := by
  have hwf := IsObjectIdHex_of_ObjectIdHex _ _ hid
  obtain ⟨c', hs⟩ := setFirst_isSome oid t.Title t.Completed c hex
  obtain ⟨⟨d, hd, hd1, hd2, hd3⟩, hmap⟩ := setFirst_spec _ _ _ _ _ hs
  refine ⟨⟨c', by simp [updateTodo, hwf, hid, Update, hs],
    by simp [updateTodo, hwf, hid, Update, hs, Outcome.status?, StatusOK],
    ⟨d, hd, hd1, hd2.trans ht, hd3⟩, hmap, fun hall => hall d hd (hd2.trans ht)⟩,
    fun c0 newId now link body => AllTitled_createTodo newId now link body c0,
    fun c0 link p => AllTitled_deleteTodo link p c0⟩

theorem updateTodo_empty_title_witness :
    updateTodo none " 0707070707070707070707AB " (.ok ⟨"", "", true, 0⟩)
        [⟨sampleId 1, "a", false, 2⟩, ⟨⟨[7, 7, 7, 7, 7, 7, 7, 7, 7, 7, 7, 171], rfl⟩, "b", false, 3⟩]
      = (.json StatusOK [("message", .text "Todo updated successfully")],
        [⟨sampleId 1, "a", false, 2⟩, ⟨⟨[7, 7, 7, 7, 7, 7, 7, 7, 7, 7, 7, 171], rfl⟩, "", true, 3⟩])
    ∧ AllTitled [⟨sampleId 1, "a", false, 2⟩,
        ⟨⟨[7, 7, 7, 7, 7, 7, 7, 7, 7, 7, 7, 171], rfl⟩, "b", false, 3⟩]
    ∧ ∃ c', updateTodo none " 0707070707070707070707AB " (.ok ⟨"", "", true, 0⟩)
        [⟨sampleId 1, "a", false, 2⟩, ⟨⟨[7, 7, 7, 7, 7, 7, 7, 7, 7, 7, 7, 171], rfl⟩, "b", false, 3⟩]
        = (.json StatusOK [("message", .text "Todo updated successfully")], c')
      ∧ ¬ AllTitled c' := by
  obtain ⟨c', h1, _, _, _, h5⟩ := (updateTodo_empty_title " 0707070707070707070707AB "
    ⟨"", "", true, 0⟩
    [⟨sampleId 1, "a", false, 2⟩, ⟨⟨[7, 7, 7, 7, 7, 7, 7, 7, 7, 7, 7, 171], rfl⟩, "b", false, 3⟩]
    ⟨[7, 7, 7, 7, 7, 7, 7, 7, 7, 7, 7, 171], rfl⟩ (by decide)
    ⟨_, List.mem_cons_of_mem _ (List.mem_cons_self _ _), rfl⟩ rfl).1
  exact ⟨by decide, by unfold AllTitled; decide, c', h1, h5⟩

end GoTodo
